import Mathlib

/-!
Shallow embedding of the Elasticsearch index-lifecycle scripts
`plugin/storage/es/esCleaner.py` and `plugin/storage/es/esRollover.py`.

An Elasticsearch index is modelled by its name, its creation timestamp
(epoch seconds, as curator normalises the store-reported value), and the
set of aliases it belongs to.  The store's index catalog is a list of
such records.  The curator filter calls used by the scripts
(`filter_by_regex`, `filter_by_alias`, `filter_by_age`) become list
filters; the specific regular expressions appearing in the scripts are
translated into dedicated matchers with Python `re.search` semantics
(match may start at any position).
-/

namespace JaegerEs

structure IndexMeta where
  name : String
  creation_date : Int
  aliases : List String
deriving DecidableEq, Repr

/-- The time units accepted by curator's `get_point_of_reference`
(an invalid unit string raises and aborts the process, so the unit
argument is modelled by this inductive). -/
inductive TimeUnit where
  | seconds | minutes | hours | days | weeks | months | years
deriving DecidableEq, Repr

/-- Multiplier table of curator's `get_point_of_reference`. -/
def unitSeconds : TimeUnit → Int
  | .seconds => 1
  | .minutes => 60
  | .hours => 3600
  | .days => 86400
  | .weeks => 86400 * 7
  | .months => 86400 * 30
  | .years => 86400 * 365

/-- curator point of reference: `now - unit_count * multiplier`. -/
def pointOfReference (u : TimeUnit) (count now : Int) : Int :=
  now - unitSeconds u * count

/-! ### Regex matchers (Python `re.search` semantics for the concrete
patterns used by the scripts; pattern fragments are literal). -/

/-- Consume a literal character sequence; return the remainder. -/
def dropLit : List Char → List Char → Option (List Char)
  | [], s => some s
  | _ :: _, [] => none
  | c :: cs, d :: s => if c = d then dropLit cs s else none

/-- Consume exactly `n` digit characters (regex `\d{n}`). -/
def dropDigits : Nat → List Char → Option (List Char)
  | 0, s => some s
  | _ + 1, [] => none
  | n + 1, c :: s => if c.isDigit then dropDigits n s else none

/-- Consume exactly `n` digits, returning them and the remainder. -/
def splitDigits : Nat → List Char → Option (List Char × List Char)
  | 0, s => some ([], s)
  | _ + 1, [] => none
  | n + 1, c :: s =>
    if c.isDigit then (splitDigits n s).map (fun p => (c :: p.1, p.2)) else none

def digitsToNat (cs : List Char) : Nat :=
  cs.foldl (fun a c => a * 10 + (c.toNat - 48)) 0

/-- Match `\d{4}<sep>\d{2}<sep>\d{2}` at the head of `s`, returning the
numeric year, month and day (the date-part of the cleaner's
`date_regex`, and curator's timestring search for `%Y<sep>%m<sep>%d`). -/
def matchDateAt (sep s : List Char) : Option (Nat × Nat × Nat) := do
  let (ys, s1) ← splitDigits 4 s
  let s2 ← dropLit sep s1
  let (ms, s3) ← splitDigits 2 s2
  let s4 ← dropLit sep s3
  let (ds, _) ← splitDigits 2 s4
  pure (digitsToNat ys, digitsToNat ms, digitsToNat ds)

/-- Leftmost match of the date pattern anywhere in the string
(`re.search` semantics). -/
def searchDate (sep : List Char) : List Char → Option (Nat × Nat × Nat)
  | [] => none
  | c :: s => (matchDateAt sep (c :: s)).orElse (fun _ => searchDate sep s)

/-- `re.search` for a matcher that tests a match starting at the head. -/
def reSearch (p : List Char → Bool) : List Char → Bool
  | [] => p []
  | c :: s => p (c :: s) || reSearch p s

/-- Match-at-head of the cleaner's date-mode pattern
`<pfx>jaeger-(span|service|dependencies)-\d{4}<sep>\d{2}<sep>\d{2}`. -/
def matchMainDateAt (pfx sep : List Char) (s : List Char) : Bool :=
  match dropLit (pfx ++ ("jaeger-".toList)) s with
  | none => false
  | some s1 =>
    ["span-", "service-", "dependencies-"].any fun fam =>
      match dropLit fam.toList s1 with
      | none => false
      | some s2 => (matchDateAt sep s2).isSome

/-- Match-at-head of the cleaner's rollover-mode pattern
`<pfx>jaeger-(span|service)-\d{6}`. -/
def matchMainRollAt (pfx : List Char) (s : List Char) : Bool :=
  match dropLit (pfx ++ ("jaeger-".toList)) s with
  | none => false
  | some s1 =>
    ["span-", "service-"].any fun fam =>
      ((dropLit fam.toList s1).bind (dropDigits 6)).isSome

/-- Match-at-head of the cleaner's archive pattern
`<pfx>jaeger-span-archive-\d{6}`. -/
def matchArchiveRollAt (pfx : List Char) (s : List Char) : Bool :=
  ((dropLit (pfx ++ ("jaeger-span-archive-".toList)) s).bind (dropDigits 6)).isSome

/-! ### Calendar arithmetic (Python `strptime` + epoch conversion). -/

def isLeap (y : Nat) : Bool :=
  (y % 4 == 0 && y % 100 != 0) || y % 400 == 0

def daysInMonth (y m : Nat) : Nat :=
  if m = 2 then (if isLeap y then 29 else 28)
  else if m = 4 ∨ m = 6 ∨ m = 9 ∨ m = 11 then 30
  else 31

/-- `strptime` validity of a `%Y-%m-%d` date (year at least 1, month and
day in range, day valid for the month). -/
def validDate (y m d : Nat) : Bool :=
  decide (1 ≤ y ∧ 1 ≤ m ∧ m ≤ 12 ∧ 1 ≤ d ∧ d ≤ daysInMonth y m)

/-- Days from 1970-01-01 of a proleptic Gregorian civil date (the value
`datetime.strptime` + epoch conversion produces, in days). -/
def daysFromCivil (y m d : Nat) : Int :=
  let yAdj : Nat := if m ≤ 2 then y - 1 else y
  let era : Nat := yAdj / 400
  let yoe : Nat := yAdj - era * 400
  let mp : Nat := if m > 2 then m - 3 else m + 9
  let doy : Nat := (153 * mp + 2) / 5 + d - 1
  let doe : Nat := yoe * 365 + yoe / 4 - yoe / 100 + doy
  (era : Int) * 146097 + (doe : Int) - 719468

def epochOfDate (y m d : Nat) : Int :=
  86400 * daysFromCivil y m d

/-- Epoch seconds of the date embedded in an index name: leftmost match
of `\d{4}<sep>\d{2}<sep>\d{2}`, parsed and validated as `strptime`
does.  An index without a parseable valid date has no name-based age
and never matches the age filter. -/
def extractNameEpoch (sep name : String) : Option Int :=
  match searchDate sep.toList name.toList with
  | none => none
  | some (y, m, d) => if validDate y m d then some (epochOfDate y m d) else none

/-! ### curator filters. -/

/-- `ilo.filter_by_alias(aliases=..., exclude=...)`: an index matches if
it belongs to at least one of the given aliases; matching indices are
kept (`exclude=False`) or dropped (`exclude=True`). -/
def filter_by_alias (l : List IndexMeta) (als : List String) (exclude : Bool) :
    List IndexMeta :=
  l.filter fun i => (als.any fun a => i.aliases.contains a) != exclude

/-- `ilo.filter_by_age(source='creation_date', direction='older', ...)`:
keep indices whose creation timestamp is strictly less than the point
of reference. -/
def filter_by_age_creation (l : List IndexMeta) (u : TimeUnit) (count now : Int) :
    List IndexMeta :=
  l.filter fun i => decide (i.creation_date < pointOfReference u count now)

/-- `ilo.filter_by_age(source='name', direction='older', timestring, ...)`:
keep indices whose name-embedded date is strictly less than the point of
reference; indices with no valid name date are not matched. -/
def filter_by_age_name (l : List IndexMeta) (sep : String) (u : TimeUnit)
    (count now : Int) : List IndexMeta :=
  l.filter fun i =>
    match extractNameEpoch sep i.name with
    | some e => decide (e < pointOfReference u count now)
    | none => false

/-- Python `str.lower()`, modelled characterwise (the flag values the
scripts compare against are ASCII). -/
def strLower (s : String) : String :=
  ⟨s.data.map Char.toLower⟩

/-- `str2bool` of both scripts: `v.lower() in ('true', '1')`. -/
def str2bool (v : String) : Bool :=
  ["true", "1"].contains (strLower v)

/-! ### esCleaner.py: staged filter pipeline.

`sys.exit(n)` is modelled by the `Except` error channel carrying the
exit code and message; `empty_list` exits with status 0. -/

structure ExitInfo where
  code : Nat
  msg : String
deriving DecidableEq, Repr

/-- `empty_list(ilo, msg)`: on an empty working list print `msg` and
`sys.exit(0)`. -/
def emptyListCheck (l : List IndexMeta) (msg : String) :
    Except ExitInfo (List IndexMeta) :=
  if l.isEmpty then .error ⟨0, msg⟩ else .ok l

/-- `filter_main_indices(ilo, prefix, separator)` (date-stamped mode):
regex filter, empty check, then age-by-name filter with unit days. -/
def filterMainIndices (l : List IndexMeta) (pfx sep : String)
    (numDays now : Int) : Except ExitInfo (List IndexMeta) := do
  let l1 ← emptyListCheck
    (l.filter fun i => reSearch (matchMainDateAt pfx.toList sep.toList) i.name.toList)
    "No indices to delete"
  pure (filter_by_age_name l1 sep .days numDays now)

/-- `filter_main_indices_rollover(ilo, prefix)`: regex filter, then
exclusion of the span and service write aliases, then age by creation
date, with an empty check after each stage. -/
def filterMainIndicesRollover (l : List IndexMeta) (pfx : String)
    (numDays now : Int) : Except ExitInfo (List IndexMeta) := do
  let l1 ← emptyListCheck
    (l.filter fun i => reSearch (matchMainRollAt pfx.toList) i.name.toList)
    "No indices to delete"
  let l2 ← emptyListCheck (filter_by_alias l1 [pfx ++ "jaeger-span-write"] true)
    "No indices to delete"
  let l3 ← emptyListCheck (filter_by_alias l2 [pfx ++ "jaeger-service-write"] true)
    "No indices to delete"
  pure (filter_by_age_creation l3 .days numDays now)

/-- `filter_archive_indices_rollover(ilo, prefix)`: archive regex
filter, exclusion of the archive write alias, then age by creation
date, with an empty check after each stage. -/
def filterArchiveIndicesRollover (l : List IndexMeta) (pfx : String)
    (numDays now : Int) : Except ExitInfo (List IndexMeta) := do
  let l1 ← emptyListCheck
    (l.filter fun i => reSearch (matchArchiveRollAt pfx.toList) i.name.toList)
    "No indices to delete"
  let l2 ← emptyListCheck (filter_by_alias l1 [pfx ++ "jaeger-span-archive-write"] true)
    "No indices to delete"
  pure (filter_by_age_creation l2 .days numDays now)

/-- Outcome of one esCleaner invocation: either the process exited
early (`empty_list`), or it reached the `DeleteIndices` call on the
final working list. -/
inductive CleanResult where
  | exited (e : ExitInfo)
  | deleted (l : List IndexMeta)
deriving DecidableEq, Repr

/-- `INDEX_PREFIX` handling of both scripts: a non-empty value gets a
dash appended. -/
def pfxOf (ipfx : String) : String :=
  if ipfx = "" then "" else ipfx ++ "-"

/-- Mode dispatch of esCleaner's `main()`: `ARCHIVE` selects the
archive filter, otherwise `ROLLOVER` selects the rollover filter,
otherwise the date-stamped filter. -/
def cleanerSelect (ilo : List IndexMeta) (archiveFlag rolloverFlag : Bool)
    (pfx sep : String) (numDays now : Int) : Except ExitInfo (List IndexMeta) :=
  if archiveFlag then filterArchiveIndicesRollover ilo pfx numDays now
  else if rolloverFlag then filterMainIndicesRollover ilo pfx numDays now
  else filterMainIndices ilo pfx sep numDays now

/-- `main()` of esCleaner.py after client creation: initial
empty check, mode dispatch on `ARCHIVE` / `ROLLOVER`, final empty
check, then the delete call on the remaining working list. -/
def cleanerMain (st : List IndexMeta) (archiveFlag rolloverFlag : Bool)
    (ipfx sep : String) (numDays now : Int) : CleanResult :=
  let res : Except ExitInfo (List IndexMeta) := do
    let ilo ← emptyListCheck st "Elasticsearch has no indices"
    let sel ← cleanerSelect ilo archiveFlag rolloverFlag (pfxOf ipfx) sep numDays now
    emptyListCheck sel "No indices to delete"
  match res with
  | .error e => .exited e
  | .ok l => .deleted l

/-! ### esRollover.py: state-changing operations.

The store state is the index catalog; every operation returns the new
catalog.  Store mutations are also recorded as effects where a claim
is about what calls are issued. -/

/-- Alias add on one index's alias set (adding an existing alias
association is a store no-op). -/
def addAlias (a : String) (l : List String) : List String :=
  if l.contains a then l else l ++ [a]

/-- `create_index(client, name)`: `curator.CreateIndex` with
`ignore_existing=True` — a no-op when the name exists, otherwise a new
index with no aliases. -/
def create_index (st : List IndexMeta) (name : String) (now : Int) :
    List IndexMeta :=
  if st.any (fun i => i.name == name) then st
  else st ++ [⟨name, now, []⟩]

/-- `create_aliases(client, alias_name, archive_index_name, use_ilm)`:
the catalog is filtered by the anchored regex `^name$` (exact name
match) and the alias is added to every match. -/
def create_aliases (st : List IndexMeta) (a idx : String) : List IndexMeta :=
  st.map fun i =>
    if i.name == idx then { i with aliases := addAlias a i.aliases } else i

/-- `is_alias_empty(client, alias_name)`: true iff no index belongs to
the alias. -/
def is_alias_empty (st : List IndexMeta) (a : String) : Bool :=
  (filter_by_alias st [a] false).isEmpty

/-- State change of `perform_action('init', ...)` after the template
push: create `<index_to_rollover>-000001`, then create each of the
read and write aliases only when that alias is currently empty. -/
def initIndexState (st : List IndexMeta) (w r base : String) (now : Int) :
    List IndexMeta :=
  let index := base ++ "-000001"
  let st1 := create_index st index now
  let st2 := if is_alias_empty st1 r then create_aliases st1 r index else st1
  if is_alias_empty st2 w then create_aliases st2 w index else st2

/-- The store's rollover primitive (`curator.Rollover.do_action`) in
the successful case, for a plain (non-`is_write_index`) alias: the
store creates the designated new physical index and atomically moves
the write alias from the old index to it. -/
def storeRollover (st : List IndexMeta) (w newName : String) (now : Int) :
    List IndexMeta :=
  (st.map fun i => { i with aliases := i.aliases.filter (· != w) })
    ++ [⟨newName, now, [w]⟩]

/-- `curator.Alias(name=a).add(ilo)`: add alias `a` to every index of
the working list `targets`. -/
def aliasAddAll (st : List IndexMeta) (a : String) (targets : List IndexMeta) :
    List IndexMeta :=
  st.map fun i =>
    if i ∈ targets then { i with aliases := addAlias a i.aliases } else i

/-- `curator.Alias(name=a).remove(ilo)`: remove alias `a` from every
index of the working list `targets`. -/
def aliasRemove (st : List IndexMeta) (a : String) (targets : List IndexMeta) :
    List IndexMeta :=
  st.map fun i =>
    if i ∈ targets then { i with aliases := i.aliases.filter (· != a) } else i

/-- State change of `rollover(client, write_alias, read_alias, cond)`:
store rollover, then add every current write-alias member to the read
alias. -/
def rolloverState (st : List IndexMeta) (w r newName : String) (now : Int) :
    List IndexMeta :=
  let st1 := storeRollover st w newName now
  aliasAddAll st1 r (filter_by_alias st1 [w] false)

/-- `N` successive successful rollovers; each pair supplies the
store-designated new index name and its creation time. -/
def rolloverN (w r : String) : List IndexMeta → List (String × Int) → List IndexMeta
  | st, [] => st
  | st, p :: rest => rolloverN w r (rolloverState st w r p.1 p.2) rest

/-- The filter chain of `read_alias_lookback`: read-alias members,
minus write-alias members, older (by creation date) than the point of
reference. -/
def lookbackSelection (st : List IndexMeta) (w r : String) (u : TimeUnit)
    (count now : Int) : List IndexMeta :=
  filter_by_age_creation
    (filter_by_alias (filter_by_alias st [r] false) [w] true) u count now

/-! ### esRollover.py: action dispatch with effect traces. -/

/-- Store calls issued by esRollover.py, recorded in program order. -/
inductive RollEffect where
  | checkIlmPolicy (policy : String)
  | pushTemplate (templateName : String)
  | createIdx (name : String)
  | addAliasEff (a idx : String)
  | removeAliasEff (a idx : String)
  | storeRolloverCall (w : String)
deriving DecidableEq, Repr

/-- `perform_action('init', ...)`: the ES-version / ILM gate (on ES 7
a requested ILM policy must exist, `sys.exit(message)` — exit code 1 —
otherwise; on other versions requesting ILM is fatal), then template
push, index creation and conditional alias creation.  The returned
trace lists the store calls in program order. -/
def initRun (st : List IndexMeta) (w r base templateName pfx : String)
    (esVersion : Int) (useIlm policyExists : Bool) (policyName : String)
    (now : Int) : Except ExitInfo (List RollEffect × List IndexMeta) :=
  let index := base ++ "-000001"
  let st1 := create_index st index now
  let effR := if is_alias_empty st1 r then [RollEffect.addAliasEff r index] else []
  let st2 := if is_alias_empty st1 r then create_aliases st1 r index else st1
  let effW := if is_alias_empty st2 w then [RollEffect.addAliasEff w index] else []
  let mutEffs := [RollEffect.pushTemplate (pfx ++ templateName),
    RollEffect.createIdx index] ++ effR ++ effW
  if esVersion == 7 then
    if useIlm && !policyExists then
      .error ⟨1, "ILM policy missing in Elasticsearch"⟩
    else
      .ok ((if useIlm then [RollEffect.checkIlmPolicy policyName] else [])
        ++ mutEffs, initIndexState st w r base now)
  else if useIlm then .error ⟨1, "ILM is supported only for ES version 7+"⟩
  else .ok (mutEffs, initIndexState st w r base now)

/-- `rollover(client, write_alias, read_alias, conditions)` in the
successful case: the store rollover call, then one read-alias add per
current write-alias member. -/
def rolloverRun (st : List IndexMeta) (w r newName : String) (now : Int) :
    Except ExitInfo (List RollEffect × List IndexMeta) :=
  let st1 := storeRollover st w newName now
  let targets := filter_by_alias st1 [w] false
  .ok (RollEffect.storeRolloverCall w
    :: targets.map (fun i => RollEffect.addAliasEff r i.name),
    aliasAddAll st1 r targets)

/-- `read_alias_lookback(...)`: filter chain, `empty_list` (exit 0 when
nothing is selected), then removal of the selection from the read
alias.  No index is deleted from the store. -/
def lookbackRun (st : List IndexMeta) (w r : String) (u : TimeUnit)
    (count now : Int) : Except ExitInfo (List RollEffect × List IndexMeta) :=
  let sel := lookbackSelection st w r u count now
  if sel.isEmpty then .error ⟨0, "No indices to remove from alias " ++ r⟩
  else .ok (sel.map (fun i => RollEffect.removeAliasEff r i.name),
    aliasRemove st r sel)

/-- The action argument of esRollover.py. -/
inductive ESAction where
  | initA
  | rolloverA
  | lookbackA
  | otherA (s : String)
deriving DecidableEq, Repr

/-- Environment-derived parameters of one esRollover invocation. -/
structure ActionParams where
  esVersion : Int
  useIlm : Bool
  policyExists : Bool
  policyName : String
  u : TimeUnit
  unitCount : Int
  now : Int
deriving DecidableEq, Repr

/-- `perform_action(action, client, write_alias, read_alias,
index_to_rollover, template_name, prefix)`.  The store-designated
rollover target name is passed in as `newName`.  An unrecognized
action prints and exits with status 1. -/
def performActionM (act : ESAction) (st : List IndexMeta)
    (w r base templateName pfx newName : String) (p : ActionParams) :
    Except ExitInfo (List RollEffect × List IndexMeta) :=
  match act with
  | .initA => initRun st w r base templateName pfx p.esVersion p.useIlm
      p.policyExists p.policyName p.now
  | .rolloverA => rolloverRun st w r newName p.now
  | .lookbackA => lookbackRun st w r p.u p.unitCount p.now
  | .otherA s => .error ⟨1, "Unrecognized action " ++ s⟩

/-- `main()` of esRollover.py after client creation: with `ARCHIVE`
set, the action runs against the single `jaeger-span-archive` family;
otherwise it runs against `jaeger-span` first and then
`jaeger-service`, the second family seeing the state left by the
first.  `newName1` / `newName2` are the store-designated rollover
targets for the first and second family. -/
def mainRollover (archiveFlag : Bool) (act : ESAction) (ipfx : String)
    (st : List IndexMeta) (newName1 newName2 : String) (p : ActionParams) :
    Except ExitInfo (List RollEffect × List IndexMeta) :=
  let pfx := pfxOf ipfx
  if archiveFlag then
    performActionM act st (pfx ++ "jaeger-span-archive-write")
      (pfx ++ "jaeger-span-archive-read") (pfx ++ "jaeger-span-archive")
      "jaeger-span" pfx newName1 p
  else do
    let (e1, st1) ← performActionM act st (pfx ++ "jaeger-span-write")
      (pfx ++ "jaeger-span-read") (pfx ++ "jaeger-span") "jaeger-span" pfx newName1 p
    let (e2, st2) ← performActionM act st1 (pfx ++ "jaeger-service-write")
      (pfx ++ "jaeger-service-read") (pfx ++ "jaeger-service") "jaeger-service"
      pfx newName2 p
    pure (e1 ++ e2, st2)

/-- Number of indices currently belonging to an alias (the alias's
membership size, as one `filter_by_alias` catalog query reports it). -/
def aliasCount (st : List IndexMeta) (a : String) : Nat :=
  (filter_by_alias st [a] false).length

/-- Modelled from the spec: the archive-mode candidate selection that
claim C6 describes — "separating write and read alias membership via
an exclude/include pair of alias predicates rather than a name-date
predicate, with alias membership (not creation-date semantics)
governing archive retention".  Stated here only to be compared with
`filterArchiveIndicesRollover`, the selection the code performs. -/
def archiveSelectionClaimed (st : List IndexMeta) (pfx : String) :
    List IndexMeta :=
  filter_by_alias
    (filter_by_alias
      (st.filter fun i => reSearch (matchArchiveRollAt pfx.toList) i.name.toList)
      [pfx ++ "jaeger-span-archive-write"] true)
    [pfx ++ "jaeger-span-archive-read"] false

/-! ## Helper lemmas -/

theorem contains_filter_ne {l : List String} {a b : String} (h : a ≠ b) :
    (l.filter (· != b)).contains a = l.contains a := by
  induction l with
  | nil => rfl
  | cons x xs ih =>
    by_cases hx : x = b <;> simp_all [List.filter_cons, List.contains_cons]

theorem contains_filter_self (l : List String) (w : String) :
    (l.filter (· != w)).contains w = false := by
  induction l with
  | nil => rfl
  | cons x xs ih =>
    by_cases hx : x = w
    · simp_all [List.filter_cons]
    · have hx' : ¬w = x := fun hh => hx hh.symm
      simp_all [List.filter_cons, List.contains_cons]

theorem addAlias_contains_self (l : List String) (a : String) :
    (addAlias a l).contains a = true := by
  simp only [addAlias]
  split <;> simp_all

theorem addAlias_contains_mono {l : List String} {a : String} (b : String)
    (h : l.contains a = true) : (addAlias b l).contains a = true := by
  simp only [addAlias]
  split <;> simp_all

theorem filter_by_alias_single (st : List IndexMeta) (a : String) :
    filter_by_alias st [a] false = st.filter (fun i => i.aliases.contains a) := by
  simp [filter_by_alias]

theorem filter_by_alias_single_excl (st : List IndexMeta) (a : String) :
    filter_by_alias st [a] true = st.filter (fun i => !(i.aliases.contains a)) := by
  simp [filter_by_alias]

theorem emptyListCheck_ok_iff {l l' : List IndexMeta} {msg : String} :
    emptyListCheck l msg = .ok l' ↔ (l.isEmpty = false ∧ l = l') := by
  unfold emptyListCheck
  split
  · rename_i h
    simp [h]
  · rename_i h
    rw [Bool.not_eq_true] at h
    simp [h]

theorem emptyListCheck_error_iff {l : List IndexMeta} {msg : String} {e : ExitInfo} :
    emptyListCheck l msg = .error e ↔ (l.isEmpty = true ∧ e = ⟨0, msg⟩) := by
  unfold emptyListCheck
  split
  · rename_i h
    simp [h, eq_comm]
  · rename_i h
    rw [Bool.not_eq_true] at h
    simp [h]

theorem filterMainIndices_ok {l sel : List IndexMeta} {pfx sep : String}
    {nd now : Int} (h : filterMainIndices l pfx sep nd now = .ok sel) :
    sel = filter_by_age_name
      (l.filter fun i => reSearch (matchMainDateAt pfx.toList sep.toList) i.name.toList)
      sep .days nd now := by
  unfold filterMainIndices at h
  cases h1 : emptyListCheck
      (l.filter fun i => reSearch (matchMainDateAt pfx.toList sep.toList) i.name.toList)
      "No indices to delete" with
  | error e => rw [h1] at h; simp [Bind.bind, Except.bind] at h
  | ok l1 =>
    rw [h1] at h
    simp only [Bind.bind, Except.bind, pure, Except.pure, Except.ok.injEq] at h
    obtain ⟨-, rfl⟩ := emptyListCheck_ok_iff.mp h1
    exact h.symm

theorem filterMainIndicesRollover_ok {l sel : List IndexMeta} {pfx : String}
    {nd now : Int} (h : filterMainIndicesRollover l pfx nd now = .ok sel) :
    sel = filter_by_age_creation
      (filter_by_alias
        (filter_by_alias
          (l.filter fun i => reSearch (matchMainRollAt pfx.toList) i.name.toList)
          [pfx ++ "jaeger-span-write"] true)
        [pfx ++ "jaeger-service-write"] true) .days nd now := by
  unfold filterMainIndicesRollover at h
  cases h1 : emptyListCheck
      (l.filter fun i => reSearch (matchMainRollAt pfx.toList) i.name.toList)
      "No indices to delete" with
  | error e => rw [h1] at h; simp [Bind.bind, Except.bind] at h
  | ok l1 =>
    rw [h1] at h
    simp only [Bind.bind, Except.bind] at h
    obtain ⟨-, hl1⟩ := emptyListCheck_ok_iff.mp h1
    cases h2 : emptyListCheck (filter_by_alias l1 [pfx ++ "jaeger-span-write"] true)
        "No indices to delete" with
    | error e => rw [h2] at h; simp [Except.bind] at h
    | ok l2 =>
      rw [h2] at h
      simp only [Except.bind] at h
      obtain ⟨-, hl2⟩ := emptyListCheck_ok_iff.mp h2
      cases h3 : emptyListCheck (filter_by_alias l2 [pfx ++ "jaeger-service-write"] true)
          "No indices to delete" with
      | error e => rw [h3] at h; simp [Except.bind] at h
      | ok l3 =>
        rw [h3] at h
        simp only [Except.bind, pure, Except.pure, Except.ok.injEq] at h
        obtain ⟨-, hl3⟩ := emptyListCheck_ok_iff.mp h3
        subst hl1
        subst hl2
        subst hl3
        exact h.symm

theorem filterArchiveIndicesRollover_ok {l sel : List IndexMeta} {pfx : String}
    {nd now : Int} (h : filterArchiveIndicesRollover l pfx nd now = .ok sel) :
    sel = filter_by_age_creation
      (filter_by_alias
        (l.filter fun i => reSearch (matchArchiveRollAt pfx.toList) i.name.toList)
        [pfx ++ "jaeger-span-archive-write"] true) .days nd now := by
  unfold filterArchiveIndicesRollover at h
  cases h1 : emptyListCheck
      (l.filter fun i => reSearch (matchArchiveRollAt pfx.toList) i.name.toList)
      "No indices to delete" with
  | error e => rw [h1] at h; simp [Bind.bind, Except.bind] at h
  | ok l1 =>
    rw [h1] at h
    simp only [Bind.bind, Except.bind] at h
    obtain ⟨-, hl1⟩ := emptyListCheck_ok_iff.mp h1
    cases h2 : emptyListCheck (filter_by_alias l1 [pfx ++ "jaeger-span-archive-write"] true)
        "No indices to delete" with
    | error e => rw [h2] at h; simp [Except.bind] at h
    | ok l2 =>
      rw [h2] at h
      simp only [Except.bind, pure, Except.pure, Except.ok.injEq] at h
      obtain ⟨-, hl2⟩ := emptyListCheck_ok_iff.mp h2
      subst hl1
      subst hl2
      exact h.symm

theorem filterMainIndices_error {l : List IndexMeta} {pfx sep : String}
    {nd now : Int} {e : ExitInfo}
    (h : filterMainIndices l pfx sep nd now = .error e) :
    e = ⟨0, "No indices to delete"⟩ := by
  unfold filterMainIndices at h
  cases h1 : emptyListCheck
      (l.filter fun i => reSearch (matchMainDateAt pfx.toList sep.toList) i.name.toList)
      "No indices to delete" with
  | error e2 =>
    rw [h1] at h
    simp only [Bind.bind, Except.bind, Except.error.injEq] at h
    subst h
    exact (emptyListCheck_error_iff.mp h1).2
  | ok l1 =>
    rw [h1] at h
    simp [Bind.bind, Except.bind, pure, Except.pure] at h

theorem filterMainIndicesRollover_error {l : List IndexMeta} {pfx : String}
    {nd now : Int} {e : ExitInfo}
    (h : filterMainIndicesRollover l pfx nd now = .error e) :
    e = ⟨0, "No indices to delete"⟩ := by
  unfold filterMainIndicesRollover at h
  cases h1 : emptyListCheck
      (l.filter fun i => reSearch (matchMainRollAt pfx.toList) i.name.toList)
      "No indices to delete" with
  | error e2 =>
    rw [h1] at h
    simp only [Bind.bind, Except.bind, Except.error.injEq] at h
    subst h
    exact (emptyListCheck_error_iff.mp h1).2
  | ok l1 =>
    rw [h1] at h
    simp only [Bind.bind, Except.bind] at h
    cases h2 : emptyListCheck (filter_by_alias l1 [pfx ++ "jaeger-span-write"] true)
        "No indices to delete" with
    | error e2 =>
      rw [h2] at h
      simp only [Except.bind, Except.error.injEq] at h
      subst h
      exact (emptyListCheck_error_iff.mp h2).2
    | ok l2 =>
      rw [h2] at h
      simp only [Except.bind] at h
      cases h3 : emptyListCheck (filter_by_alias l2 [pfx ++ "jaeger-service-write"] true)
          "No indices to delete" with
      | error e2 =>
        rw [h3] at h
        simp only [Except.bind, Except.error.injEq] at h
        subst h
        exact (emptyListCheck_error_iff.mp h3).2
      | ok l3 =>
        rw [h3] at h
        simp [Except.bind, pure, Except.pure] at h

theorem filterArchiveIndicesRollover_error {l : List IndexMeta} {pfx : String}
    {nd now : Int} {e : ExitInfo}
    (h : filterArchiveIndicesRollover l pfx nd now = .error e) :
    e = ⟨0, "No indices to delete"⟩ := by
  unfold filterArchiveIndicesRollover at h
  cases h1 : emptyListCheck
      (l.filter fun i => reSearch (matchArchiveRollAt pfx.toList) i.name.toList)
      "No indices to delete" with
  | error e2 =>
    rw [h1] at h
    simp only [Bind.bind, Except.bind, Except.error.injEq] at h
    subst h
    exact (emptyListCheck_error_iff.mp h1).2
  | ok l1 =>
    rw [h1] at h
    simp only [Bind.bind, Except.bind] at h
    cases h2 : emptyListCheck (filter_by_alias l1 [pfx ++ "jaeger-span-archive-write"] true)
        "No indices to delete" with
    | error e2 =>
      rw [h2] at h
      simp only [Except.bind, Except.error.injEq] at h
      subst h
      exact (emptyListCheck_error_iff.mp h2).2
    | ok l2 =>
      rw [h2] at h
      simp [Except.bind, pure, Except.pure] at h

theorem cleanerSelect_error {ilo : List IndexMeta} {aF rF : Bool}
    {pfx sep : String} {nd now : Int} {e : ExitInfo}
    (h : cleanerSelect ilo aF rF pfx sep nd now = .error e) :
    e = ⟨0, "No indices to delete"⟩ := by
  unfold cleanerSelect at h
  cases aF
  · cases rF
    · exact filterMainIndices_error (by simpa using h)
    · exact filterMainIndicesRollover_error (by simpa using h)
  · exact filterArchiveIndicesRollover_error (by simpa using h)

theorem cleanerMain_deleted {st dl : List IndexMeta} {aF rF : Bool}
    {ipfx sep : String} {nd now : Int}
    (h : cleanerMain st aF rF ipfx sep nd now = .deleted dl) :
    dl ≠ []
    ∧ (aF = true → filterArchiveIndicesRollover st (pfxOf ipfx) nd now = .ok dl)
    ∧ (aF = false → rF = true →
        filterMainIndicesRollover st (pfxOf ipfx) nd now = .ok dl)
    ∧ (aF = false → rF = false →
        filterMainIndices st (pfxOf ipfx) sep nd now = .ok dl) := by
  unfold cleanerMain at h
  cases h1 : emptyListCheck st "Elasticsearch has no indices" with
  | error e => rw [h1] at h; simp [Bind.bind, Except.bind] at h
  | ok ilo =>
    rw [h1] at h
    simp only [Bind.bind, Except.bind] at h
    obtain ⟨-, rfl⟩ := emptyListCheck_ok_iff.mp h1
    cases hb : cleanerSelect st aF rF (pfxOf ipfx) sep nd now with
    | error e => rw [hb] at h; simp [Except.bind] at h
    | ok sel =>
      rw [hb] at h
      simp only [Except.bind] at h
      cases h3 : emptyListCheck sel "No indices to delete" with
      | error e => rw [h3] at h; simp at h
      | ok dl2 =>
        rw [h3] at h
        simp only [CleanResult.deleted.injEq] at h
        obtain ⟨hne, hsel⟩ := emptyListCheck_ok_iff.mp h3
        subst h
        subst hsel
        unfold cleanerSelect at hb
        refine ⟨by simpa [List.isEmpty_iff] using hne, fun ha => ?_,
          fun ha hr => ?_, fun ha hr => ?_⟩
        · subst ha; simpa using hb
        · subst ha; subst hr; simpa using hb
        · subst ha; subst hr; simpa using hb

theorem cleanerMain_exited_code {st : List IndexMeta} {aF rF : Bool}
    {ipfx sep : String} {nd now : Int} {e : ExitInfo}
    (h : cleanerMain st aF rF ipfx sep nd now = .exited e) :
    e.code = 0
    ∧ (e.msg = "Elasticsearch has no indices" ∨ e.msg = "No indices to delete") := by
  unfold cleanerMain at h
  cases h1 : emptyListCheck st "Elasticsearch has no indices" with
  | error e1 =>
    rw [h1] at h
    simp only [Bind.bind, Except.bind, CleanResult.exited.injEq] at h
    subst h
    have he := (emptyListCheck_error_iff.mp h1).2
    subst he
    exact ⟨rfl, Or.inl rfl⟩
  | ok ilo =>
    rw [h1] at h
    simp only [Bind.bind, Except.bind] at h
    obtain ⟨-, rfl⟩ := emptyListCheck_ok_iff.mp h1
    cases hb : cleanerSelect st aF rF (pfxOf ipfx) sep nd now with
    | error e2 =>
      rw [hb] at h
      simp only [Except.bind, CleanResult.exited.injEq] at h
      subst h
      have he := cleanerSelect_error hb
      subst he
      exact ⟨rfl, Or.inr rfl⟩
    | ok sel =>
      rw [hb] at h
      simp only [Except.bind] at h
      cases h3 : emptyListCheck sel "No indices to delete" with
      | error e3 =>
        rw [h3] at h
        simp only [CleanResult.exited.injEq] at h
        subst h
        have he := (emptyListCheck_error_iff.mp h3).2
        subst he
        exact ⟨rfl, Or.inr rfl⟩
      | ok dl =>
        rw [h3] at h
        simp at h

/-! ## Claim theorems -/

theorem mem_excl {l : List IndexMeta} {a : String} {i : IndexMeta}
    (h : i ∈ filter_by_alias l [a] true) : i ∈ l ∧ a ∉ i.aliases := by
  rw [filter_by_alias_single_excl, List.mem_filter] at h
  refine ⟨h.1, ?_⟩
  have hb := h.2
  simpa using hb

theorem mem_age_creation {l : List IndexMeta} {u : TimeUnit} {count now : Int}
    {i : IndexMeta} (h : i ∈ filter_by_age_creation l u count now) :
    i ∈ l ∧ i.creation_date < pointOfReference u count now := by
  rw [filter_by_age_creation, List.mem_filter] at h
  simpa using h


/-- C10: for every string `v`, `str2bool` returns true iff `v`
lowercased is exactly "true" or exactly "1"; unrecognized values such
as "yes", "on" or "TRUE " (trailing whitespace) silently map to
false. -/
theorem str2bool_true_iff :
    (∀ v : String, str2bool v = true ↔ (strLower v = "true" ∨ strLower v = "1"))
    ∧ str2bool "yes" = false ∧ str2bool "on" = false
    ∧ str2bool "TRUE " = false ∧ str2bool "TRUE" = true ∧ str2bool "1" = true := by
  refine ⟨fun v => ?_, by decide, by decide, by decide, by decide, by decide⟩
  simp [str2bool]

/-- C5: both age filters (by name-embedded date, used by the
date-stamped sweep, and by creation timestamp, used by the rollover
and archive sweeps and by lookback) select only indices strictly older
than `now - count × unit`; an index dated exactly at the threshold is
retained. -/
theorem age_filters_strictly_older :
    (∀ (l : List IndexMeta) (sep : String) (u : TimeUnit) (count now : Int)
        (i : IndexMeta), i ∈ filter_by_age_name l sep u count now →
      ∃ e, extractNameEpoch sep i.name = some e ∧ e < now - unitSeconds u * count)
    ∧ (∀ (l : List IndexMeta) (sep : String) (u : TimeUnit) (count now : Int)
        (i : IndexMeta),
        extractNameEpoch sep i.name = some (now - unitSeconds u * count) →
        i ∉ filter_by_age_name l sep u count now)
    ∧ (∀ (l : List IndexMeta) (u : TimeUnit) (count now : Int) (i : IndexMeta),
        i ∈ filter_by_age_creation l u count now →
        i.creation_date < now - unitSeconds u * count)
    ∧ (∀ (l : List IndexMeta) (u : TimeUnit) (count now : Int) (i : IndexMeta),
        i.creation_date = now - unitSeconds u * count →
        i ∉ filter_by_age_creation l u count now) := by
  refine ⟨?_, ?_, ?_, ?_⟩
  · intro l sep u count now i h
    rw [filter_by_age_name, List.mem_filter] at h
    obtain ⟨-, hb⟩ := h
    revert hb
    cases hext : extractNameEpoch sep i.name <;> simp [pointOfReference]
  · intro l sep u count now i hext h
    rw [filter_by_age_name, List.mem_filter, hext] at h
    simp [pointOfReference] at h
  · intro l u count now i h
    rw [filter_by_age_creation, List.mem_filter] at h
    simpa [pointOfReference] using h.2
  · intro l u count now i hcd h
    rw [filter_by_age_creation, List.mem_filter] at h
    simp [pointOfReference, hcd] at h

/-- Witness for C5 at the boundary: with now = 2024-03-10T00:00:00Z
and a 7-day window, an index named for 2024-03-03 (exactly 7 days old)
and an index created exactly at the threshold are both retained. -/
theorem age_filters_strictly_older_witness :
    (⟨"jaeger-span-2024-03-03", 0, []⟩ : IndexMeta)
      ∉ filter_by_age_name [⟨"jaeger-span-2024-03-03", 0, []⟩] "-" .days 7 1710028800
    ∧ (⟨"x", 1710028800 - 86400 * 7, []⟩ : IndexMeta)
      ∉ filter_by_age_creation [⟨"x", 1710028800 - 86400 * 7, []⟩] .days 7 1710028800 := by
  constructor
  · exact age_filters_strictly_older.2.1 _ "-" .days 7 1710028800 _ (by decide)
  · exact age_filters_strictly_older.2.2.2 _ .days 7 1710028800 _ (by decide)

/-- C3: the lookback operation selects exactly the indices that are
read-alias members, not write-alias members, and strictly older by
creation date than `count × unit` before now; it removes only the read
alias from exactly those indices, leaves every other index and alias
untouched, and deletes no index from the store (the catalog names are
unchanged). -/
theorem lookback_removes_exactly (st : List IndexMeta) (w r : String)
    (u : TimeUnit) (count now : Int) :
    (∀ i, i ∈ lookbackSelection st w r u count now ↔
      (i ∈ st ∧ r ∈ i.aliases ∧ w ∉ i.aliases
        ∧ i.creation_date < now - unitSeconds u * count))
    ∧ aliasRemove st r (lookbackSelection st w r u count now)
      = st.map (fun i =>
          if r ∈ i.aliases ∧ w ∉ i.aliases
              ∧ i.creation_date < now - unitSeconds u * count
          then { i with aliases := i.aliases.filter (· != r) } else i)
    ∧ (aliasRemove st r (lookbackSelection st w r u count now)).map (·.name)
      = st.map (·.name) := by
  have h1 : ∀ i, i ∈ lookbackSelection st w r u count now ↔
      (i ∈ st ∧ r ∈ i.aliases ∧ w ∉ i.aliases
        ∧ i.creation_date < now - unitSeconds u * count) := by
    intro i
    simp only [lookbackSelection, filter_by_age_creation, filter_by_alias,
      List.mem_filter, pointOfReference]
    simp
    tauto
  refine ⟨h1, ?_, ?_⟩
  · unfold aliasRemove
    apply List.map_congr_left
    intro i hi
    by_cases hc : (r ∈ i.aliases ∧ w ∉ i.aliases
        ∧ i.creation_date < now - unitSeconds u * count)
    · rw [if_pos ((h1 i).mpr ⟨hi, hc.1, hc.2.1, hc.2.2⟩), if_pos hc]
    · rw [if_neg (fun hmem => hc ⟨((h1 i).mp hmem).2.1, ((h1 i).mp hmem).2.2.1,
        ((h1 i).mp hmem).2.2.2⟩), if_neg hc]
  · unfold aliasRemove
    rw [List.map_map]
    apply List.map_congr_left
    intro i _
    simp only [Function.comp_apply]
    split <;> rfl

/-- C6 counterexample: with now = 2024-03-10 and a 7-day window, on a
catalog holding a fresh archive index 000001 that is a read-alias
member and an old archive index 000002 that is in no alias, the
archive-mode sweep deletes exactly 000002: creation-date semantics,
not read-alias membership, govern the selection, while the claimed
exclude/include alias-pair selection would pick 000001. -/
theorem archive_sweep_alias_pair_counterexample :
    cleanerMain
      [⟨"jaeger-span-archive-000001", 1710028800, ["jaeger-span-archive-read"]⟩,
        ⟨"jaeger-span-archive-000002", 0, []⟩] true false "" "-" 7 1710028800
      = .deleted [⟨"jaeger-span-archive-000002", 0, []⟩]
    ∧ archiveSelectionClaimed
      [⟨"jaeger-span-archive-000001", 1710028800, ["jaeger-span-archive-read"]⟩,
        ⟨"jaeger-span-archive-000002", 0, []⟩] ""
      = [⟨"jaeger-span-archive-000001", 1710028800, ["jaeger-span-archive-read"]⟩] := by
  exact ⟨by decide, by decide⟩

/-- C6 amended: archive-mode deletion selects rollover-named archive
indices by the name pattern, excludes the current write-alias member
via a single alias predicate, and then applies a creation-date age
filter; the read alias is not consulted and no name-date predicate is
used. -/
theorem archive_sweep_selection (l : List IndexMeta) (pfx : String)
    (nd now : Int) (sel : List IndexMeta)
    (h : filterArchiveIndicesRollover l pfx nd now = .ok sel) (i : IndexMeta) :
    i ∈ sel ↔ (i ∈ l
      ∧ reSearch (matchArchiveRollAt pfx.toList) i.name.toList = true
      ∧ (pfx ++ "jaeger-span-archive-write") ∉ i.aliases
      ∧ i.creation_date < now - 86400 * nd) := by
  rw [filterArchiveIndicesRollover_ok h]
  simp only [filter_by_age_creation, filter_by_alias, List.mem_filter,
    pointOfReference, unitSeconds]
  simp
  tauto

/-- Witness for C6 amended: a concrete archive sweep whose selection
contains the old, unaliased index 000002. -/
theorem archive_sweep_selection_witness :
    (⟨"jaeger-span-archive-000002", 0, []⟩ : IndexMeta)
      ∈ [(⟨"jaeger-span-archive-000001", 1710028800,
            ["jaeger-span-archive-read"]⟩ : IndexMeta),
          ⟨"jaeger-span-archive-000002", 0, []⟩]
    ∧ (0 : Int) < 1710028800 - 86400 * 7 := by
  have h := archive_sweep_selection
    [⟨"jaeger-span-archive-000001", 1710028800, ["jaeger-span-archive-read"]⟩,
      ⟨"jaeger-span-archive-000002", 0, []⟩] "" 7 1710028800
    [⟨"jaeger-span-archive-000002", 0, []⟩] (by rfl)
    ⟨"jaeger-span-archive-000002", 0, []⟩
  exact ⟨(h.mp (by decide)).1, (h.mp (by decide)).2.2.2⟩

/-- C1 counterexample: the date-stamped sweep applies no alias
exclusion, so an old date-stamped index that is bound to the span
write alias is in the set passed to the delete call. -/
theorem date_sweep_deletes_write_aliased :
    cleanerMain [⟨"jaeger-span-2020-01-01", 0, ["jaeger-span-write"]⟩]
      false false "" "-" 7 1710028800
      = .deleted [⟨"jaeger-span-2020-01-01", 0, ["jaeger-span-write"]⟩]
    ∧ "jaeger-span-write"
      ∈ (IndexMeta.mk "jaeger-span-2020-01-01" 0 ["jaeger-span-write"]).aliases := by
  exact ⟨by decide, by decide⟩

/-- C1 amended: in the rollover and archive sweep modes the index
bound to the active write alias of the swept family is never in the
set passed to the delete call, regardless of its age; the date-stamped
mode applies no alias exclusion at all. -/
theorem rollover_sweeps_exclude_write_aliased (st : List IndexMeta)
    (ipfx sep : String) (nd now : Int) (dl : List IndexMeta) (i : IndexMeta) :
    (cleanerMain st false true ipfx sep nd now = .deleted dl → i ∈ dl →
      (pfxOf ipfx ++ "jaeger-span-write") ∉ i.aliases
        ∧ (pfxOf ipfx ++ "jaeger-service-write") ∉ i.aliases)
    ∧ (∀ rF : Bool, cleanerMain st true rF ipfx sep nd now = .deleted dl → i ∈ dl →
      (pfxOf ipfx ++ "jaeger-span-archive-write") ∉ i.aliases) := by
  constructor
  · intro h hi
    have hok := (cleanerMain_deleted h).2.2.1 rfl rfl
    rw [filterMainIndicesRollover_ok hok] at hi
    have h2 := mem_excl (mem_age_creation hi).1
    exact ⟨(mem_excl h2.1).2, h2.2⟩
  · intro rF h hi
    have hok := (cleanerMain_deleted h).2.1 rfl
    rw [filterArchiveIndicesRollover_ok hok] at hi
    exact (mem_excl (mem_age_creation hi).1).2

/-- Witness for C1 amended: concrete rollover-mode and archive-mode
sweeps with a non-empty delete set. -/
theorem rollover_sweeps_exclude_write_aliased_witness :
    ((pfxOf "" ++ "jaeger-span-write")
        ∉ (IndexMeta.mk "jaeger-span-000001" 0 []).aliases
      ∧ (pfxOf "" ++ "jaeger-service-write")
        ∉ (IndexMeta.mk "jaeger-span-000001" 0 []).aliases)
    ∧ (pfxOf "" ++ "jaeger-span-archive-write")
      ∉ (IndexMeta.mk "jaeger-span-archive-000001" 0 []).aliases := by
  constructor
  · exact (rollover_sweeps_exclude_write_aliased [⟨"jaeger-span-000001", 0, []⟩]
      "" "-" 7 1710028800 [⟨"jaeger-span-000001", 0, []⟩]
      ⟨"jaeger-span-000001", 0, []⟩).1 (by decide) (by decide)
  · exact (rollover_sweeps_exclude_write_aliased [⟨"jaeger-span-archive-000001", 0, []⟩]
      "" "-" 7 1710028800 [⟨"jaeger-span-archive-000001", 0, []⟩]
      ⟨"jaeger-span-archive-000001", 0, []⟩).2 false (by decide) (by decide)

/-- C8: an empty candidate set after filtering terminates the action
with exit status 0 and a "nothing to do" message, and no mutating
store call is issued — the cleaner's delete call is only reached with
a non-empty working list, every cleaner exit carries code 0, and the
lookback removal is skipped by an exit-0 when its selection is empty;
failures, such as an unrecognized action, exit with the distinct
non-zero status 1. -/
theorem empty_filter_exits_zero :
    (∀ (st : List IndexMeta) (aF rF : Bool) (ipfx sep : String) (nd now : Int)
        (dl : List IndexMeta),
      cleanerMain st aF rF ipfx sep nd now = .deleted dl → dl ≠ [])
    ∧ (∀ (st : List IndexMeta) (aF rF : Bool) (ipfx sep : String) (nd now : Int)
        (e : ExitInfo),
      cleanerMain st aF rF ipfx sep nd now = .exited e → e.code = 0
        ∧ (e.msg = "Elasticsearch has no indices" ∨ e.msg = "No indices to delete"))
    ∧ (∀ (st : List IndexMeta) (w r : String) (u : TimeUnit) (count now : Int),
      lookbackSelection st w r u count now = [] →
      lookbackRun st w r u count now
        = .error ⟨0, "No indices to remove from alias " ++ r⟩)
    ∧ (∀ (st : List IndexMeta) (w r base tn pfx newName : String)
        (p : ActionParams) (s : String),
      performActionM (.otherA s) st w r base tn pfx newName p
        = .error ⟨1, "Unrecognized action " ++ s⟩) := by
  refine ⟨fun st aF rF ipfx sep nd now dl h => (cleanerMain_deleted h).1,
    fun st aF rF ipfx sep nd now e h => cleanerMain_exited_code h,
    fun st w r u count now hsel => ?_,
    fun st w r base tn pfx newName p s => rfl⟩
  simp [lookbackRun, hsel]

/-- Witness for C8: a concrete non-empty delete set, and a concrete
lookback run that exits 0 on an empty selection. -/
theorem empty_filter_exits_zero_witness :
    ([(⟨"jaeger-span-000001", 0, []⟩ : IndexMeta)] : List IndexMeta) ≠ []
    ∧ lookbackRun [] "w" "r" .days 2 0
      = .error ⟨0, "No indices to remove from alias " ++ "r"⟩ := by
  constructor
  · exact empty_filter_exits_zero.1 [⟨"jaeger-span-000001", 0, []⟩] false true
      "" "-" 7 1710028800 [⟨"jaeger-span-000001", 0, []⟩] (by decide)
  · exact empty_filter_exits_zero.2.2.1 [] "w" "r" .days 2 0 rfl

/-- C9: with ARCHIVE set, one invocation runs the action only against
the jaeger-span-archive family; otherwise jaeger-span is processed
first and jaeger-service second, the second family seeing the state
left by the first, with the effect traces concatenated in that fixed
order; and because an empty lookback selection exits the whole process
with status 0, a lookback whose span-family selection is empty
terminates before the service family is processed at all. -/
theorem main_processes_families_in_order :
    (∀ (act : ESAction) (ipfx : String) (st : List IndexMeta) (n1 n2 : String)
        (p : ActionParams),
      mainRollover true act ipfx st n1 n2 p
        = performActionM act st (pfxOf ipfx ++ "jaeger-span-archive-write")
            (pfxOf ipfx ++ "jaeger-span-archive-read")
            (pfxOf ipfx ++ "jaeger-span-archive") "jaeger-span" (pfxOf ipfx) n1 p)
    ∧ (∀ (act : ESAction) (ipfx : String) (st : List IndexMeta) (n1 n2 : String)
        (p : ActionParams) (e1 : List RollEffect) (st1 : List IndexMeta)
        (e2 : List RollEffect) (st2 : List IndexMeta),
      performActionM act st (pfxOf ipfx ++ "jaeger-span-write")
          (pfxOf ipfx ++ "jaeger-span-read") (pfxOf ipfx ++ "jaeger-span")
          "jaeger-span" (pfxOf ipfx) n1 p = .ok (e1, st1) →
      performActionM act st1 (pfxOf ipfx ++ "jaeger-service-write")
          (pfxOf ipfx ++ "jaeger-service-read") (pfxOf ipfx ++ "jaeger-service")
          "jaeger-service" (pfxOf ipfx) n2 p = .ok (e2, st2) →
      mainRollover false act ipfx st n1 n2 p = .ok (e1 ++ e2, st2))
    ∧ (∀ (ipfx : String) (st : List IndexMeta) (n1 n2 : String) (p : ActionParams),
      lookbackSelection st (pfxOf ipfx ++ "jaeger-span-write")
          (pfxOf ipfx ++ "jaeger-span-read") p.u p.unitCount p.now = [] →
      mainRollover false .lookbackA ipfx st n1 n2 p
        = .error ⟨0, "No indices to remove from alias "
            ++ (pfxOf ipfx ++ "jaeger-span-read")⟩) := by
  refine ⟨fun act ipfx st n1 n2 p => rfl, ?_, ?_⟩
  · intro act ipfx st n1 n2 p e1 st1 e2 st2 h1 h2
    simp [mainRollover, h1, h2, Bind.bind, Except.bind, pure, Except.pure]
  · intro ipfx st n1 n2 p hsel
    simp [mainRollover, performActionM, lookbackRun, hsel, Bind.bind, Except.bind]

/-- Witness for C9: a concrete two-family rollover producing the
span-then-service trace, and a concrete empty-span lookback that
stops with exit 0 before touching the service family. -/
theorem main_processes_families_in_order_witness :
    mainRollover false .rolloverA ""
      [⟨"jaeger-span-000001", 0, ["jaeger-span-write"]⟩,
        ⟨"jaeger-service-000001", 0, ["jaeger-service-write"]⟩]
      "jaeger-span-000002" "jaeger-service-000002" ⟨7, false, false, "pol", .days, 2, 100⟩
      = .ok ([.storeRolloverCall "jaeger-span-write",
          .addAliasEff "jaeger-span-read" "jaeger-span-000002"]
          ++ [.storeRolloverCall "jaeger-service-write",
          .addAliasEff "jaeger-service-read" "jaeger-service-000002"],
        [⟨"jaeger-span-000001", 0, []⟩,
          ⟨"jaeger-service-000001", 0, []⟩,
          ⟨"jaeger-span-000002", 100, ["jaeger-span-write", "jaeger-span-read"]⟩,
          ⟨"jaeger-service-000002", 100,
            ["jaeger-service-write", "jaeger-service-read"]⟩])
    ∧ mainRollover false .lookbackA "" [] "n1" "n2" ⟨7, false, false, "pol", .days, 2, 0⟩
      = .error ⟨0, "No indices to remove from alias "
          ++ (pfxOf "" ++ "jaeger-span-read")⟩ := by
  constructor
  · exact main_processes_families_in_order.2.1 .rolloverA ""
      [⟨"jaeger-span-000001", 0, ["jaeger-span-write"]⟩,
        ⟨"jaeger-service-000001", 0, ["jaeger-service-write"]⟩]
      "jaeger-span-000002" "jaeger-service-000002" ⟨7, false, false, "pol", .days, 2, 100⟩
      [.storeRolloverCall "jaeger-span-write",
        .addAliasEff "jaeger-span-read" "jaeger-span-000002"]
      [⟨"jaeger-span-000001", 0, []⟩,
        ⟨"jaeger-service-000001", 0, ["jaeger-service-write"]⟩,
        ⟨"jaeger-span-000002", 100, ["jaeger-span-write", "jaeger-span-read"]⟩]
      [.storeRolloverCall "jaeger-service-write",
        .addAliasEff "jaeger-service-read" "jaeger-service-000002"]
      [⟨"jaeger-span-000001", 0, []⟩,
        ⟨"jaeger-service-000001", 0, []⟩,
        ⟨"jaeger-span-000002", 100, ["jaeger-span-write", "jaeger-span-read"]⟩,
        ⟨"jaeger-service-000002", 100,
          ["jaeger-service-write", "jaeger-service-read"]⟩]
      rfl rfl
  · exact main_processes_families_in_order.2.2 "" [] "n1" "n2"
      ⟨7, false, false, "pol", .days, 2, 0⟩ rfl

/-- C7: when init requests ILM and the named policy is absent, the
invocation exits fatally with a non-zero status and no store call
(template push, index creation, alias creation) is issued; on the
successful ES-7 ILM path the policy-existence check is the first
store interaction of the trace, before any template push. -/
theorem ilm_policy_checked_before_init :
    (∀ (st : List IndexMeta) (w r base tn pfx : String) (v : Int)
        (polName : String) (now : Int),
      ∃ e : ExitInfo, initRun st w r base tn pfx v true false polName now
        = .error e ∧ e.code = 1)
    ∧ (∀ (st : List IndexMeta) (w r base tn pfx polName : String) (now : Int)
        (pe : Bool) (tr : List RollEffect) (st2 : List IndexMeta),
      initRun st w r base tn pfx 7 true pe polName now = .ok (tr, st2) →
      tr.head? = some (.checkIlmPolicy polName)) := by
  constructor
  · intro st w r base tn pfx v polName now
    unfold initRun
    by_cases hv : v == 7
    · exact ⟨⟨1, "ILM policy missing in Elasticsearch"⟩, by simp [hv], rfl⟩
    · exact ⟨⟨1, "ILM is supported only for ES version 7+"⟩, by simp [hv], rfl⟩
  · intro st w r base tn pfx polName now pe tr st2 h
    unfold initRun at h
    cases pe
    · simp at h
    · simp at h
      obtain ⟨h1, -⟩ := h
      subst h1
      rfl

/-- Witness for C7: on a concrete ES-7 init with ILM enabled and the
policy present, the trace starts with the policy check. -/
theorem ilm_policy_checked_before_init_witness :
    ([RollEffect.checkIlmPolicy "pol", .pushTemplate "pt", .createIdx "b-000001",
        .addAliasEff "r" "b-000001", .addAliasEff "w" "b-000001"].head?
      = some (.checkIlmPolicy "pol")) :=
  ilm_policy_checked_before_init.2 [] "w" "r" "b" "t" "p" "pol" 0 true
    [RollEffect.checkIlmPolicy "pol", .pushTemplate "pt", .createIdx "b-000001",
      .addAliasEff "r" "b-000001", .addAliasEff "w" "b-000001"]
    [⟨"b-000001", 0, ["r", "w"]⟩] rfl

/-! ## Helper lemmas for init idempotence (C4) -/

theorem create_aliases_map_name (st : List IndexMeta) (a idx : String) :
    (create_aliases st a idx).map (·.name) = st.map (·.name) := by
  unfold create_aliases
  rw [List.map_map]
  apply List.map_congr_left
  intro i _
  simp only [Function.comp_apply]
  split <;> rfl

theorem any_name_eq (st : List IndexMeta) (p : String → Bool) :
    st.any (fun i => p i.name) = (st.map (·.name)).any p := by
  induction st with
  | nil => rfl
  | cons x xs ih => simp [ih]

theorem create_aliases_any_name (st : List IndexMeta) (a idx : String)
    (p : String → Bool) :
    (create_aliases st a idx).any (fun i => p i.name)
      = st.any (fun i => p i.name) := by
  rw [any_name_eq, create_aliases_map_name, ← any_name_eq]

theorem create_index_any_self (st : List IndexMeta) (name : String) (now : Int) :
    (create_index st name now).any (fun i => i.name == name) = true := by
  unfold create_index
  split
  · assumption
  · simp [List.any_append]

theorem step_any_name (st : List IndexMeta) (c : Bool) (a idx : String)
    (p : String → Bool) :
    ((if c then create_aliases st a idx else st).any fun i => p i.name)
      = st.any (fun i => p i.name) := by
  cases c <;> simp [create_aliases_any_name]

theorem create_aliases_alias_mono {st : List IndexMeta} {a : String} (b idx : String)
    (h : st.any (fun i => i.aliases.contains a) = true) :
    (create_aliases st b idx).any (fun i => i.aliases.contains a) = true := by
  induction st with
  | nil => simp at h
  | cons x xs ih =>
    unfold create_aliases
    rw [List.map_cons, List.any_cons, Bool.or_eq_true]
    rw [List.any_cons, Bool.or_eq_true] at h
    rcases h with hx | hxs
    · left
      split
      · exact addAlias_contains_mono b hx
      · exact hx
    · right
      exact ih hxs

theorem create_aliases_creates {st : List IndexMeta} (a : String) {idx : String}
    (h : st.any (fun i => i.name == idx) = true) :
    (create_aliases st a idx).any (fun i => i.aliases.contains a) = true := by
  induction st with
  | nil => simp at h
  | cons x xs ih =>
    unfold create_aliases
    rw [List.map_cons, List.any_cons, Bool.or_eq_true]
    rw [List.any_cons, Bool.or_eq_true] at h
    rcases h with hx | hxs
    · left
      simp only [hx, if_true]
      exact addAlias_contains_self x.aliases a
    · right
      exact ih hxs

theorem step_alias_mono (st : List IndexMeta) (c : Bool) (b idx a : String)
    (h : st.any (fun i => i.aliases.contains a) = true) :
    ((if c then create_aliases st b idx else st).any fun i => i.aliases.contains a)
      = true := by
  cases c
  · simpa using h
  · simpa using create_aliases_alias_mono b idx h

theorem is_alias_empty_false_iff (st : List IndexMeta) (a : String) :
    is_alias_empty st a = false
      ↔ st.any (fun i => i.aliases.contains a) = true := by
  unfold is_alias_empty
  rw [filter_by_alias_single, Bool.eq_false_iff]
  simp [List.isEmpty_iff, List.filter_eq_nil_iff, List.any_eq_true]

theorem alias_step_nonempty (s : List IndexMeta) (a idx : String)
    (hidx : s.any (fun i => i.name == idx) = true) :
    ((if is_alias_empty s a then create_aliases s a idx else s).any
      fun i => i.aliases.contains a) = true := by
  cases ha : is_alias_empty s a
  · simp only [ha, Bool.false_eq_true, if_false]
    exact (is_alias_empty_false_iff s a).mp ha
  · simp only [ha, if_true]
    exact create_aliases_creates a hidx

theorem initIndexState_has_index (st : List IndexMeta) (w r base : String)
    (n1 : Int) :
    (initIndexState st w r base n1).any (fun i => i.name == base ++ "-000001")
      = true := by
  simp only [initIndexState]
  rw [step_any_name _ _ _ _ (· == base ++ "-000001"),
    step_any_name _ _ _ _ (· == base ++ "-000001")]
  exact create_index_any_self st (base ++ "-000001") n1

theorem initIndexState_read_nonempty (st : List IndexMeta) (w r base : String)
    (n1 : Int) :
    (initIndexState st w r base n1).any (fun i => i.aliases.contains r)
      = true := by
  simp only [initIndexState]
  exact step_alias_mono _ _ w (base ++ "-000001") r
    (alias_step_nonempty _ r (base ++ "-000001")
      (create_index_any_self st (base ++ "-000001") n1))

theorem initIndexState_write_nonempty (st : List IndexMeta) (w r base : String)
    (n1 : Int) :
    (initIndexState st w r base n1).any (fun i => i.aliases.contains w)
      = true := by
  simp only [initIndexState]
  apply alias_step_nonempty
  rw [step_any_name _ _ _ _ (· == base ++ "-000001")]
  exact create_index_any_self st (base ++ "-000001") n1

theorem init_on_saturated (A : List IndexMeta) (w r base : String) (n2 : Int)
    (hname : A.any (fun i => i.name == base ++ "-000001") = true)
    (hr : A.any (fun i => i.aliases.contains r) = true)
    (hw : A.any (fun i => i.aliases.contains w) = true) :
    initIndexState A w r base n2 = A := by
  have hci : create_index A (base ++ "-000001") n2 = A := by
    unfold create_index
    rw [if_pos hname]
  have hrf : is_alias_empty A r = false := (is_alias_empty_false_iff A r).mpr hr
  have hwf : is_alias_empty A w = false := (is_alias_empty_false_iff A w).mpr hw
  simp [initIndexState, hci, hrf, hwf]

theorem initIndexState_idem (st : List IndexMeta) (w r base : String)
    (n1 n2 : Int) :
    initIndexState (initIndexState st w r base n1) w r base n2
      = initIndexState st w r base n1 :=
  init_on_saturated _ w r base n2
    (initIndexState_has_index st w r base n1)
    (initIndexState_read_nonempty st w r base n1)
    (initIndexState_write_nonempty st w r base n1)

theorem create_index_nodup_names {st : List IndexMeta} (nm : String) (now : Int)
    (h : (st.map (·.name)).Nodup) :
    ((create_index st nm now).map (·.name)).Nodup := by
  unfold create_index
  split
  · exact h
  · rename_i hany
    rw [List.map_append]
    simp only [List.map_cons, List.map_nil]
    rw [List.nodup_append]
    refine ⟨h, List.nodup_singleton nm, ?_⟩
    intro x hx
    simp only [List.mem_singleton]
    intro hEq
    subst hEq
    have hmem : (st.map (·.name)).any (· == x) = true :=
      List.any_eq_true.mpr ⟨x, hx, by simp⟩
    exact hany (by rw [any_name_eq st (· == x)]; exact hmem)

theorem initIndexState_nodup (st : List IndexMeta) (w r base : String) (n1 : Int)
    (h : (st.map (·.name)).Nodup) :
    ((initIndexState st w r base n1).map (·.name)).Nodup := by
  have hstep : ∀ (s : List IndexMeta) (c : Bool) (a idx : String),
      ((if c then create_aliases s a idx else s).map (·.name)) = s.map (·.name) := by
    intro s c a idx
    cases c <;> simp [create_aliases_map_name]
  simp only [initIndexState]
  rw [hstep, hstep]
  exact create_index_nodup_names (base ++ "-000001") n1 h

theorem countP_name_le_one (st : List IndexMeta) (x : String)
    (h : (st.map (·.name)).Nodup) :
    st.countP (fun i => i.name == x) ≤ 1 := by
  have hc : st.countP (fun i => i.name == x) = (st.map (·.name)).count x := by
    rw [List.count_eq_countP, List.countP_map]
    rfl
  rw [hc]
  exact List.nodup_iff_count_le_one.mp h x

/-- C4: on a catalog with distinct index names, re-running `init`
against the same prefix and family is a no-op — the `-000001` physical
index already exists (creation is skipped) and both aliases are
non-empty, so alias creation is skipped — hence the state after two
runs equals the state after one, and at most one physical index
carries the `-000001` suffix name. -/
theorem init_is_idempotent (st : List IndexMeta) (w r base : String)
    (n1 n2 : Int) (h : (st.map (·.name)).Nodup) :
    initIndexState (initIndexState st w r base n1) w r base n2
      = initIndexState st w r base n1
    ∧ (initIndexState st w r base n1).countP
        (fun i => i.name == base ++ "-000001") ≤ 1 :=
  ⟨initIndexState_idem st w r base n1 n2,
    countP_name_le_one _ _ (initIndexState_nodup st w r base n1 h)⟩

/-- Witness for C4: a concrete double init on an empty catalog. -/
theorem init_is_idempotent_witness :
    initIndexState (initIndexState [] "jaeger-span-write" "jaeger-span-read"
        "jaeger-span" 100) "jaeger-span-write" "jaeger-span-read" "jaeger-span" 200
      = initIndexState [] "jaeger-span-write" "jaeger-span-read" "jaeger-span" 100
    ∧ (initIndexState [] "jaeger-span-write" "jaeger-span-read" "jaeger-span"
        100).countP (fun i => i.name == "jaeger-span" ++ "-000001") ≤ 1 :=
  init_is_idempotent [] "jaeger-span-write" "jaeger-span-read" "jaeger-span"
    100 200 (by decide)

/-! ## Helper lemmas for rollover alias accumulation (C2) -/

theorem aliasAddAll_filter (st : List IndexMeta) (a : String) (p : IndexMeta → Bool) :
    aliasAddAll st a (st.filter p)
      = st.map fun i =>
          if p i then { i with aliases := addAlias a i.aliases } else i := by
  unfold aliasAddAll
  apply List.map_congr_left
  intro i hi
  by_cases hp : p i = true
  · have hmem : i ∈ st.filter p := List.mem_filter.mpr ⟨hi, hp⟩
    rw [if_pos hmem, if_pos hp]
  · have hmem : i ∉ st.filter p := fun hm => hp (List.mem_filter.mp hm).2
    rw [if_neg hmem, if_neg hp]

theorem rolloverState_eq (st : List IndexMeta) (w r nm : String) (t : Int) :
    rolloverState st w r nm t
      = (st.map fun (i : IndexMeta) => { i with aliases := i.aliases.filter (· != w) })
        ++ [⟨nm, t, addAlias r [w]⟩] := by
  simp only [rolloverState, storeRollover]
  rw [filter_by_alias_single, aliasAddAll_filter, List.map_append]
  congr 1
  · rw [List.map_map]
    apply List.map_congr_left
    intro i _
    simp [contains_filter_self]
  · simp

theorem aliasCount_eq_countP (st : List IndexMeta) (a : String) :
    aliasCount st a = st.countP (fun i => i.aliases.contains a) := by
  unfold aliasCount
  rw [filter_by_alias_single]
  exact (List.countP_eq_length_filter ..).symm

theorem countP_map_eq (l : List IndexMeta) (g : IndexMeta → IndexMeta)
    (p : IndexMeta → Bool) :
    (l.map g).countP p = l.countP (fun x => p (g x)) := by
  rw [List.countP_map]
  rfl

theorem rolloverState_write_count (st : List IndexMeta) (w r nm : String)
    (t : Int) : aliasCount (rolloverState st w r nm t) w = 1 := by
  rw [aliasCount_eq_countP, rolloverState_eq]
  have h1 : ∀ l : List String, w ∉ l.filter (· != w) := fun l => by simp
  have h2 : w ∈ addAlias r [w] := by
    unfold addAlias
    split <;> simp
  simp [List.countP_append, countP_map_eq, Function.comp, h1, h2]

theorem rolloverState_read_count (st : List IndexMeta) {w r : String}
    (nm : String) (t : Int) (hwr : w ≠ r) :
    aliasCount (rolloverState st w r nm t) r = aliasCount st r + 1 := by
  rw [aliasCount_eq_countP, aliasCount_eq_countP, rolloverState_eq]
  have h3 : ∀ l : List String, r ∈ l.filter (· != w) ↔ r ∈ l := fun l => by
    simp [List.mem_filter, (show r ≠ w from fun h => hwr h.symm)]
  have h4 : r ∈ addAlias r [w] := by
    unfold addAlias
    split
    · rename_i hc
      simpa using hc
    · simp
  simp [List.countP_append, countP_map_eq, Function.comp, h3, h4]
  apply List.countP_congr
  intro i _
  simp [h3]

theorem rolloverN_counts (w r : String) (hwr : w ≠ r)
    (ps : List (String × Int)) :
    ∀ st : List IndexMeta, aliasCount st w = 1 →
      aliasCount (rolloverN w r st ps) w = 1
        ∧ aliasCount (rolloverN w r st ps) r = aliasCount st r + ps.length := by
  induction ps with
  | nil =>
    intro st hw
    exact ⟨hw, by simp [rolloverN]⟩
  | cons p rest ih =>
    intro st hw
    have h1 := rolloverState_write_count st w r p.1 p.2
    have h2 := rolloverState_read_count st p.1 p.2 hwr
    have IH := ih (rolloverState st w r p.1 p.2) h1
    have hstep : rolloverN w r st (p :: rest)
        = rolloverN w r (rolloverState st w r p.1 p.2) rest := rfl
    refine ⟨by rw [hstep]; exact IH.1, ?_⟩
    rw [hstep, IH.2, h2]
    simp only [List.length_cons]
    omega

theorem initIndexState_nil_counts {w r : String} (base : String) (n0 : Int)
    (hwr : w ≠ r) :
    aliasCount (initIndexState [] w r base n0) w = 1
      ∧ aliasCount (initIndexState [] w r base n0) r = 1 := by
  have hne : (w == r) = false := by
    simp [hwr]
  have hstate : initIndexState [] w r base n0
      = [⟨base ++ "-000001", n0, [r, w]⟩] := by
    simp [initIndexState, create_index, is_alias_empty, filter_by_alias,
      create_aliases, addAlias, List.contains_cons, hne, hwr]
  rw [hstate, aliasCount_eq_countP, aliasCount_eq_countP]
  simp [List.countP_cons, List.contains_cons]

/-- C2: starting from an initialized family (one `-000001` index
holding both aliases) and performing `N` successful rollovers whose
store-designated target names are fresh and pairwise distinct, the
read alias accumulates every rollover target without losing members —
its membership size is `N + 1` — while the write alias always has
exactly one member. -/
theorem rollover_read_accumulates (w r base : String) (n0 : Int)
    (ps : List (String × Int)) (hwr : w ≠ r)
    (_hfresh : (base ++ "-000001") ∉ ps.map Prod.fst)
    (_hnodup : (ps.map Prod.fst).Nodup) :
    aliasCount (rolloverN w r (initIndexState [] w r base n0) ps) r
      = ps.length + 1
    ∧ aliasCount (rolloverN w r (initIndexState [] w r base n0) ps) w = 1 := by
  have h0 := initIndexState_nil_counts base n0 hwr
  have h := rolloverN_counts w r hwr ps (initIndexState [] w r base n0) h0.1
  refine ⟨?_, h.1⟩
  rw [h.2, h0.2]
  omega

/-- Witness for C2: two concrete rollovers after init give a read
alias of size 3 and a write alias of size 1. -/
theorem rollover_read_accumulates_witness :
    aliasCount (rolloverN "jaeger-span-write" "jaeger-span-read"
      (initIndexState [] "jaeger-span-write" "jaeger-span-read" "jaeger-span" 100)
      [("jaeger-span-000002", 200), ("jaeger-span-000003", 300)])
      "jaeger-span-read" = 2 + 1
    ∧ aliasCount (rolloverN "jaeger-span-write" "jaeger-span-read"
      (initIndexState [] "jaeger-span-write" "jaeger-span-read" "jaeger-span" 100)
      [("jaeger-span-000002", 200), ("jaeger-span-000003", 300)])
      "jaeger-span-write" = 1 :=
  rollover_read_accumulates "jaeger-span-write" "jaeger-span-read" "jaeger-span"
    100 [("jaeger-span-000002", 200), ("jaeger-span-000003", 300)]
    (by decide) (by decide) (by decide)

end JaegerEs
